import Mathlib

/-!
# Queue controller actions (pkg/controllers/queue/queue_controller_action.go)

A shallow embedding of the three reconcile actions of the queue controller,
`syncQueue`, `openQueue` and `closeQueue`, followed by the properties that
the specification states about them.

Every action is a function from the controller's collaborators (the bound
pod-group index, the pod-group lister, the queue client) and its arguments to
an `Outcome`: the ordered list of calls the action issued to its
collaborators, and the Go `error` it returned (`none` is `nil`).
-/

namespace queue

/-! ## Data model -/

/-- Go `error` values, represented by their message text. -/
abbrev Error := String

/-- The API type `QueueState`, declared outside the source file: a Go string
type, whose zero value is the empty string. -/
abbrev QueueState := String

/-- Constant `schedulingv1alpha2.QueueStateOpen`, declared outside the source file
with the value of the upstream API.  The statements below only depend on the
two queue states being different. -/
def QueueStateOpen : QueueState := "Open"

/-- Constant `schedulingv1alpha2.QueueStateClosed`. -/
def QueueStateClosed : QueueState := "Closed"

/-- The API type `PodGroupPhase`, declared outside the source file: a Go string
type.  The four phase constants below carry the values of the upstream API;
the statements only depend on their being pairwise different. -/
abbrev PodGroupPhase := String

/-- Constant `schedulingv1alpha2.PodGroupPending`. -/
def PodGroupPending : PodGroupPhase := "Pending"

/-- Constant `schedulingv1alpha2.PodGroupRunning`. -/
def PodGroupRunning : PodGroupPhase := "Running"

/-- Constant `schedulingv1alpha2.PodGroupUnknown`. -/
def PodGroupUnknown : PodGroupPhase := "Unknown"

/-- Constant `schedulingv1alpha2.PodGroupInqueue`. -/
def PodGroupInqueue : PodGroupPhase := "Inqueue"

/-- Modelled from the spec: the declaration of `schedulingv1alpha2.QueueStatus` is
not part of the source file.  The fields are the ones the source reads and
writes (`State`, `Pending`, `Running`, `Unknown`, `Inqueue`); the four counts
are the "non-negative integers" of the data model, taken here as unbounded
naturals.  The Go zero value `QueueStatus{}` is `QueueStatus.zero`. -/
structure QueueStatus where
  State : QueueState
  Unknown : Nat
  Pending : Nat
  Running : Nat
  Inqueue : Nat
deriving DecidableEq, Repr

/-- The Go zero value `schedulingv1alpha2.QueueStatus{}`. -/
def QueueStatus.zero : QueueStatus := ⟨"", 0, 0, 0, 0⟩

/-- The queue's spec, declared outside the source file: `State` is the operator's
desired state; `Weight` stands for the spec fields the actions never touch. -/
structure QueueSpec where
  Weight : Int
  State : QueueState
deriving DecidableEq, Repr

/-- The `Queue` object, declared outside the source file: `Name` and
`ResourceVersion` come from the object metadata; `ResourceVersion` stands for
the metadata the actions never touch.  `queue.DeepCopy()` is the value itself. -/
structure Queue where
  Name : String
  ResourceVersion : String
  Spec : QueueSpec
  Status : QueueStatus
deriving DecidableEq, Repr

/-- The status of a pod group; only `Phase` is read. -/
structure PodGroupStatus where
  Phase : PodGroupPhase
deriving DecidableEq, Repr

/-- A pod group (workload group) as returned by the lister. -/
structure PodGroup where
  Status : PodGroupStatus
deriving DecidableEq, Repr

/-- Event severities `v1.EventTypeNormal` and `v1.EventTypeWarning`. -/
inductive EventType where
  | Normal
  | Warning
deriving DecidableEq, Repr

/-- Constant `v1alpha1.OpenQueueAction`, used as the event reason. -/
def OpenQueueAction : String := "OpenQueue"

/-- Constant `v1alpha1.CloseQueueAction`, used as the event reason. -/
def CloseQueueAction : String := "CloseQueue"

/-- The policy type `state.UpdateQueueStatusFn`: Go passes a pointer to the status
and the list of bound pod-group keys, and the policy rewrites the status in
place.  Here it maps the status it is handed to the status it leaves behind.
A Go slice is `none` when it is `nil`. -/
abbrev UpdateQueueStatusFn := QueueStatus → Option (List String) → QueueStatus

/-- The collaborators reached through the `*Controller` receiver.  Each field gives
the answer of the collaborator to a call with the given arguments. -/
structure Controller where
  /-- Answer of `c.getPodGroups(name)`: the keys of the pod groups bound to a queue. -/
  getPodGroups : String → Option (List String)
  /-- Answer of `c.pgLister.PodGroups(ns).Get(name)`. -/
  pgLister : String → String → Except Error PodGroup
  /-- Answer of `c.vcClient.SchedulingV1alpha2().Queues().Update(q)`. -/
  Update : Queue → Except Error Queue
  /-- Answer of `c.vcClient.SchedulingV1alpha2().Queues().UpdateStatus(q)`. -/
  UpdateStatus : Queue → Except Error Queue
  /-- Answer of `c.vcClient.SchedulingV1alpha2().Queues().Get(name, ...)`. -/
  Get : String → Except Error Queue

/-- One call issued by an action to a collaborator, with its arguments. -/
inductive Call where
  | getPodGroups (name : String)
  | PodGroupsGet (ns name : String)
  | updateStateFn (status : QueueStatus) (podGroups : Option (List String))
  | Update (q : Queue)
  | UpdateStatus (q : Queue)
  | Get (name : String)
  | Event (object : Queue) (eventtype : EventType) (reason message : String)
deriving DecidableEq, Repr

/-- What an action did: the calls it issued, in order, and the error it returned. -/
structure Outcome where
  calls : List Call
  err : Option Error
deriving DecidableEq, Repr

/-! ## Key splitting (client-go `cache.SplitMetaNamespaceKey`) -/

/-- Go `strings.Split(key, "/")` on the characters of the key. -/
def splitSlash : List Char → List (List Char)
  | [] => [[]]
  | ch :: cs =>
    if ch = '/' then [] :: splitSlash cs
    else
      match splitSlash cs with
      | [] => [[ch]]
      | p :: ps => (ch :: p) :: ps

/-- The library function `cache.SplitMetaNamespaceKey` of client-go: one part is a
bare name, two parts are namespace and name, anything else is an error and
both results are empty.  The third component tells whether the error is
non-nil; the text of the error is not represented, line 41 discards it. -/
def SplitMetaNamespaceKey (key : String) : String × String × Bool :=
  match splitSlash key.toList with
  | [name] => ("", String.mk name, false)
  | [ns, name] => (String.mk ns, String.mk name, false)
  | _ => ("", "", true)

/-! ## syncQueue -/

/-- The `switch pg.Status.Phase` of the loop body (lines 49-58): one of the four
counters is incremented, and there is no default case. -/
def countPhase (queueStatus : QueueStatus) (phase : PodGroupPhase) : QueueStatus :=
  if phase = PodGroupPending then { queueStatus with Pending := queueStatus.Pending + 1 }
  else if phase = PodGroupRunning then { queueStatus with Running := queueStatus.Running + 1 }
  else if phase = PodGroupUnknown then { queueStatus with Unknown := queueStatus.Unknown + 1 }
  else if phase = PodGroupInqueue then { queueStatus with Inqueue := queueStatus.Inqueue + 1 }
  else queueStatus

/-- Lines 41-44 for one key: the key is split, the split error is dropped, and
the lister is asked for the resulting namespace and name. -/
def getPodGroup (c : Controller) (pgKey : String) : Except Error PodGroup :=
  match SplitMetaNamespaceKey pgKey with
  | (ns, name, _) => c.pgLister ns name

/-- The lister call issued for one key. -/
def getPodGroupCall (pgKey : String) : Call :=
  match SplitMetaNamespaceKey pgKey with
  | (ns, name, _) => Call.PodGroupsGet ns name

/-- The `for _, pgKey := range podGroups` loop (lines 39-59), started with the
status accumulated so far: the lister calls issued, and either the error of
the first failed lookup (the `return err` of line 46) or the final tally. -/
def tallyPodGroups (c : Controller) : List String → QueueStatus → List Call × Except Error QueueStatus
  | [], queueStatus => ([], Except.ok queueStatus)
  | pgKey :: rest, queueStatus =>
    match getPodGroup c pgKey with
    | Except.error err => ([getPodGroupCall pgKey], Except.error err)
    | Except.ok pg =>
      let r := tallyPodGroups c rest (countPhase queueStatus pg.Status.Phase)
      (getPodGroupCall pgKey :: r.1, r.2)

/-- Lines 61-65: the candidate status, from the tally and the policy. -/
def candidateStatus (queue : Queue) (updateStateFn : Option UpdateQueueStatusFn)
    (podGroups : Option (List String)) (queueStatus : QueueStatus) : QueueStatus :=
  match updateStateFn with
  | some fn => fn queueStatus podGroups
  | none => { queueStatus with State := queue.Status.State }

/-- The policy call of line 62, when a policy is given. -/
def candidateCalls (updateStateFn : Option UpdateQueueStatusFn)
    (podGroups : Option (List String)) (queueStatus : QueueStatus) : List Call :=
  match updateStateFn with
  | some _ => [Call.updateStateFn queueStatus podGroups]
  | none => []

/-- The method `(c *Controller) syncQueue(queue, updateStateFn)`. -/
def syncQueue (c : Controller) (queue : Queue) (updateStateFn : Option UpdateQueueStatusFn) : Outcome :=
  let podGroups := c.getPodGroups queue.Name
  match tallyPodGroups c (podGroups.getD []) QueueStatus.zero with
  | (looked, Except.error err) => ⟨Call.getPodGroups queue.Name :: looked, some err⟩
  | (looked, Except.ok counted) =>
    let queueStatus := candidateStatus queue updateStateFn podGroups counted
    let issued := Call.getPodGroups queue.Name :: looked ++ candidateCalls updateStateFn podGroups counted
    if queueStatus = queue.Status then ⟨issued, none⟩
    else
      let newQueue := { queue with Status := queueStatus }
      match c.UpdateStatus newQueue with
      | Except.error err => ⟨issued ++ [Call.UpdateStatus newQueue], some err⟩
      | Except.ok _ => ⟨issued ++ [Call.UpdateStatus newQueue], none⟩

/-! ## openQueue and closeQueue -/

/-- The error of lines 110 and 154. -/
def internalError : Error := "internal error, update state function should be provided"

/-- The method `(c *Controller) openQueue(queue, updateStateFn)`. -/
def openQueue (c : Controller) (queue : Queue) (updateStateFn : Option UpdateQueueStatusFn) : Outcome :=
  let newQueue : Queue := { queue with Spec := { queue.Spec with State := QueueStateOpen } }
  if queue.Spec.State ≠ newQueue.Spec.State then
    match c.Update newQueue with
    | Except.error err =>
      ⟨[Call.Update newQueue,
        Call.Event newQueue EventType.Warning OpenQueueAction ("Open queue failed for " ++ err)],
       some err⟩
    | Except.ok _ =>
      let issued := [Call.Update newQueue,
        Call.Event newQueue EventType.Normal OpenQueueAction "Open queue succeed",
        Call.Get newQueue.Name]
      match c.Get newQueue.Name with
      | Except.error err => ⟨issued, some err⟩
      | Except.ok q =>
        match updateStateFn with
        | none => ⟨issued, some internalError⟩
        | some fn =>
          let newQueue : Queue := { q with Status := fn q.Status none }
          let issued := issued ++ [Call.updateStateFn q.Status none]
          if queue.Status.State ≠ newQueue.Status.State then
            match c.UpdateStatus newQueue with
            | Except.error err =>
              ⟨issued ++ [Call.UpdateStatus newQueue,
                 Call.Event newQueue EventType.Warning OpenQueueAction
                   ("Update queue status from " ++ queue.Status.State ++ " to "
                     ++ newQueue.Status.State ++ " failed for " ++ err)],
               some err⟩
            | Except.ok _ => ⟨issued ++ [Call.UpdateStatus newQueue], none⟩
          else ⟨issued, none⟩
  else ⟨[], none⟩

/-- The method `(c *Controller) closeQueue(queue, updateStateFn)`. -/
def closeQueue (c : Controller) (queue : Queue) (updateStateFn : Option UpdateQueueStatusFn) : Outcome :=
  let newQueue : Queue := { queue with Spec := { queue.Spec with State := QueueStateClosed } }
  if queue.Spec.State ≠ newQueue.Spec.State then
    match c.Update newQueue with
    | Except.error err =>
      ⟨[Call.Update newQueue,
        Call.Event newQueue EventType.Warning CloseQueueAction ("Close queue failed for " ++ err)],
       some err⟩
    | Except.ok _ =>
      let issued := [Call.Update newQueue,
        Call.Event newQueue EventType.Normal CloseQueueAction "Close queue succeed",
        Call.Get newQueue.Name]
      match c.Get newQueue.Name with
      | Except.error err => ⟨issued, some err⟩
      | Except.ok q =>
        let podGroups := c.getPodGroups q.Name
        let issued := issued ++ [Call.getPodGroups q.Name]
        match updateStateFn with
        | none => ⟨issued, some internalError⟩
        | some fn =>
          let newQueue : Queue := { q with Status := fn q.Status podGroups }
          let issued := issued ++ [Call.updateStateFn q.Status podGroups]
          if queue.Status.State ≠ newQueue.Status.State then
            match c.UpdateStatus newQueue with
            | Except.error err =>
              ⟨issued ++ [Call.UpdateStatus newQueue,
                 Call.Event newQueue EventType.Warning CloseQueueAction
                   ("Update queue status from " ++ queue.Status.State ++ " to "
                     ++ newQueue.Status.State ++ " failed for " ++ err)],
               some err⟩
            | Except.ok _ => ⟨issued ++ [Call.UpdateStatus newQueue], none⟩
          else ⟨issued, none⟩
  else ⟨[], none⟩

/-! ## Observations on the list of calls -/

/-- The queues submitted to `UpdateStatus`, in order. -/
def statusWrites : List Call → List Queue
  | [] => []
  | Call.UpdateStatus q :: rest => q :: statusWrites rest
  | _ :: rest => statusWrites rest

/-- The store writes (`Update` and `UpdateStatus` calls), in order. -/
def storeWrites : List Call → List Call
  | [] => []
  | Call.Update q :: rest => Call.Update q :: storeWrites rest
  | Call.UpdateStatus q :: rest => Call.UpdateStatus q :: storeWrites rest
  | _ :: rest => storeWrites rest

/-- The arguments of the policy invocations, in order. -/
def policyCalls : List Call → List (QueueStatus × Option (List String))
  | [] => []
  | Call.updateStateFn s g :: rest => (s, g) :: policyCalls rest
  | _ :: rest => policyCalls rest

/-- The events of severity `Normal` among the calls, in order. -/
def normalEvents : List Call → List Call
  | [] => []
  | Call.Event o EventType.Normal r m :: rest => Call.Event o EventType.Normal r m :: normalEvents rest
  | _ :: rest => normalEvents rest

/-! ## Specification-level tallies -/

/-- Number of groups of a list that are in the given phase. -/
def phaseCount (pgs : List PodGroup) (phase : PodGroupPhase) : Nat :=
  pgs.countP (fun pg => decide (pg.Status.Phase = phase))

/-- A status increased, count by count, by the per-phase numbers of a list of
groups; the lifecycle state is kept. -/
def addTally (st : QueueStatus) (pgs : List PodGroup) : QueueStatus :=
  ⟨st.State, st.Unknown + phaseCount pgs PodGroupUnknown, st.Pending + phaseCount pgs PodGroupPending,
    st.Running + phaseCount pgs PodGroupRunning, st.Inqueue + phaseCount pgs PodGroupInqueue⟩

/-- The per-phase tallies of a list of groups, with the empty lifecycle state. -/
def phaseTally (pgs : List PodGroup) : QueueStatus :=
  ⟨"", phaseCount pgs PodGroupUnknown, phaseCount pgs PodGroupPending,
    phaseCount pgs PodGroupRunning, phaseCount pgs PodGroupInqueue⟩

/-- Every key of the list resolves, in order, to the corresponding group. -/
def Resolves (c : Controller) (keys : List String) (pgs : List PodGroup) : Prop :=
  List.Forall₂ (fun k pg => getPodGroup c k = Except.ok pg) keys pgs

/-- A key that `SplitMetaNamespaceKey` rejects. -/
def Malformed (key : String) : Prop := (SplitMetaNamespaceKey key).2.2 = true

instance (key : String) : Decidable (Malformed key) := by
  unfold Malformed; infer_instance

/-- The queue held by the store once an action that started from `queue` has
finished with the given calls: the name is kept, and the status is the last
one the action submitted with `UpdateStatus`, or the status of `queue` when
it submitted none. -/
def StoredAfter (queue : Queue) (calls : List Call) (stored : Queue) : Prop :=
  stored.Name = queue.Name ∧
    stored.Status = (((statusWrites calls).getLast?).map (fun w => w.Status)).getD queue.Status

/-- The per-phase tallies when the groups `pgsB`, then the single group `pg`, then
the groups `pgsA` are counted: `pg` adds one to the count of its own phase
when that phase is one of the four. -/
def tallyAround (pgsB : List PodGroup) (pg : PodGroup) (pgsA : List PodGroup) : QueueStatus :=
  ⟨"",
   phaseCount pgsB PodGroupUnknown + (if pg.Status.Phase = PodGroupUnknown then 1 else 0)
     + phaseCount pgsA PodGroupUnknown,
   phaseCount pgsB PodGroupPending + (if pg.Status.Phase = PodGroupPending then 1 else 0)
     + phaseCount pgsA PodGroupPending,
   phaseCount pgsB PodGroupRunning + (if pg.Status.Phase = PodGroupRunning then 1 else 0)
     + phaseCount pgsA PodGroupRunning,
   phaseCount pgsB PodGroupInqueue + (if pg.Status.Phase = PodGroupInqueue then 1 else 0)
     + phaseCount pgsA PodGroupInqueue⟩

/-! ## Concrete collaborators used to exercise the statements -/

/-- A lister holding four groups in namespace `default`. -/
def demoLister : String → String → Except Error PodGroup := fun ns name =>
  if ns = "default" ∧ name = "pg1" then Except.ok ⟨⟨"Pending"⟩⟩
  else if ns = "default" ∧ name = "pg2" then Except.ok ⟨⟨"Running"⟩⟩
  else if ns = "default" ∧ name = "pg3" then Except.ok ⟨⟨"Running"⟩⟩
  else if ns = "default" ∧ name = "pg4" then Except.ok ⟨⟨"Completed"⟩⟩
  else Except.error ("podgroup not found: " ++ ns ++ "/" ++ name)

/-- The queue the demo store returns on a refetch of `q2`. -/
def demoStoredQ2 : Queue := ⟨"q2", "8", ⟨1, "Closed"⟩, ⟨"Open", 0, 0, 2, 0⟩⟩

/-- A controller whose index binds four groups to `q1`, two to `q2` and a
malformed key to `q3`, and whose store rejects writes to the queue `locked`. -/
def demoController : Controller where
  getPodGroups := fun name =>
    if name = "q1" then some ["default/pg1", "default/pg2", "default/pg3", "default/pg4"]
    else if name = "q2" then some ["default/pg2", "default/pg3"]
    else if name = "q3" then some ["a/b/c", "default/pg2"]
    else none
  pgLister := demoLister
  Update := fun q => if q.Name = "locked" then Except.error "conflict" else Except.ok q
  UpdateStatus := fun q => if q.Name = "locked" then Except.error "conflict" else Except.ok q
  Get := fun name => if name = "q2" then Except.ok demoStoredQ2 else Except.error "not found"

/-- A controller like `demoController` whose lister resolves every namespace and
name to a running group. -/
def laxController : Controller :=
  { demoController with pgLister := fun _ _ => Except.ok ⟨⟨"Running"⟩⟩ }

/-- Queue `q1`, open, with an all-zero status. -/
def demoQ1 : Queue := ⟨"q1", "1", ⟨1, "Open"⟩, ⟨"Open", 0, 0, 0, 0⟩⟩

/-- Queue `q1` again, with a status whose counts are already the tallies of its
four groups. -/
def demoQ1Synced : Queue := ⟨"q1", "2", ⟨1, "Open"⟩, ⟨"Open", 0, 1, 2, 0⟩⟩

/-- Queue `q2`, open, with two running groups recorded. -/
def demoQ2 : Queue := ⟨"q2", "7", ⟨1, "Open"⟩, ⟨"Open", 0, 0, 2, 0⟩⟩

/-- Queue `locked`, open; the demo store rejects every write to it. -/
def demoLocked : Queue := ⟨"locked", "3", ⟨1, "Open"⟩, ⟨"Open", 0, 0, 0, 0⟩⟩

/-- Queue `q9`, closed; the demo store accepts writes to it and cannot refetch it. -/
def demoQ9 : Queue := ⟨"q9", "4", ⟨1, "Closed"⟩, ⟨"Closed", 0, 0, 0, 0⟩⟩

/-- Queue `q3`, open, to which a malformed key is bound. -/
def demoQ3 : Queue := ⟨"q3", "1", ⟨1, "Open"⟩, ⟨"Open", 0, 0, 0, 0⟩⟩

/-- The keys bound to `q1` in the demo controller. -/
def demoKeys : List String := ["default/pg1", "default/pg2", "default/pg3", "default/pg4"]

/-- The groups the keys bound to `q1` resolve to. -/
def demoGroups : List PodGroup := [⟨⟨"Pending"⟩⟩, ⟨⟨"Running"⟩⟩, ⟨⟨"Running"⟩⟩, ⟨⟨"Completed"⟩⟩]

/-- A pass-through policy: it leaves the status it is handed unchanged. -/
def passThrough : UpdateQueueStatusFn := fun status _ => status

/-- A policy for closing: `Closing` while groups are running, `Closed` otherwise. -/
def closingPolicy : UpdateQueueStatusFn := fun status _ =>
  if status.Running = 0 then { status with State := "Closed" } else { status with State := "Closing" }

/-! ## Lemmas on the observations -/

@[simp] theorem statusWrites_append (xs ys : List Call) :
    statusWrites (xs ++ ys) = statusWrites xs ++ statusWrites ys := by
  induction xs with
  | nil => rfl
  | cons x xs ih => cases x <;> simp [statusWrites, ih]

@[simp] theorem storeWrites_append (xs ys : List Call) :
    storeWrites (xs ++ ys) = storeWrites xs ++ storeWrites ys := by
  induction xs with
  | nil => rfl
  | cons x xs ih => cases x <;> simp [storeWrites, ih]

@[simp] theorem policyCalls_append (xs ys : List Call) :
    policyCalls (xs ++ ys) = policyCalls xs ++ policyCalls ys := by
  induction xs with
  | nil => rfl
  | cons x xs ih => cases x <;> simp [policyCalls, ih]

theorem getPodGroupCall_eq (k : String) :
    getPodGroupCall k = Call.PodGroupsGet (SplitMetaNamespaceKey k).1 (SplitMetaNamespaceKey k).2.1 := rfl

theorem getPodGroup_eq (c : Controller) (k : String) :
    getPodGroup c k = c.pgLister (SplitMetaNamespaceKey k).1 (SplitMetaNamespaceKey k).2.1 := rfl

/-- The calls of the lookup loop are lister calls for an initial segment of the keys. -/
theorem tallyPodGroups_calls (c : Controller) (keys : List String) (st : QueueStatus) :
    ∃ ks : List String, (tallyPodGroups c keys st).1 = ks.map getPodGroupCall := by
  induction keys generalizing st with
  | nil => exact ⟨[], rfl⟩
  | cons k rest ih =>
    unfold tallyPodGroups
    cases h : getPodGroup c k with
    | error e => exact ⟨[k], rfl⟩
    | ok pg =>
      obtain ⟨ks, hks⟩ := ih (countPhase st pg.Status.Phase)
      exact ⟨k :: ks, by simp [hks]⟩

@[simp] theorem statusWrites_lookups (ks : List String) :
    statusWrites (ks.map getPodGroupCall) = [] := by
  induction ks with
  | nil => rfl
  | cons k ks ih => simp [getPodGroupCall_eq, statusWrites] at ih ⊢; exact ih

@[simp] theorem storeWrites_lookups (ks : List String) :
    storeWrites (ks.map getPodGroupCall) = [] := by
  induction ks with
  | nil => rfl
  | cons k ks ih => simp [getPodGroupCall_eq, storeWrites] at ih ⊢; exact ih

@[simp] theorem policyCalls_lookups (ks : List String) :
    policyCalls (ks.map getPodGroupCall) = [] := by
  induction ks with
  | nil => rfl
  | cons k ks ih => simp [getPodGroupCall_eq, policyCalls] at ih ⊢; exact ih

/-! ## Lemmas on the lookup loop -/

theorem addTally_countPhase (st : QueueStatus) (pg : PodGroup) (pgs : List PodGroup) :
    addTally (countPhase st pg.Status.Phase) pgs = addTally st (pg :: pgs) := by
  unfold addTally countPhase phaseCount
  simp only [List.countP_cons]
  split_ifs with h1 h2 h3 h4 <;>
    simp_all [PodGroupPending, PodGroupRunning, PodGroupUnknown, PodGroupInqueue] <;> omega

theorem addTally_zero (pgs : List PodGroup) : addTally QueueStatus.zero pgs = phaseTally pgs := by
  simp [addTally, phaseTally, QueueStatus.zero]

/-- When every key resolves, the loop issues one lister call per key and ends
with the per-phase numbers added to the status it started from. -/
theorem tallyPodGroups_resolved (c : Controller) (keys : List String) (pgs : List PodGroup)
    (hres : Resolves c keys pgs) (st : QueueStatus) :
    tallyPodGroups c keys st = (keys.map getPodGroupCall, Except.ok (addTally st pgs)) := by
  induction hres generalizing st with
  | nil => simp [tallyPodGroups, addTally, phaseCount]
  | cons h _ ih => simp [tallyPodGroups, h, ih, addTally_countPhase]

/-- A loop that ends with an error stopped at the first key whose lookup failed,
and the error is that lookup's. -/
theorem tallyPodGroups_error (c : Controller) (keys : List String) (st : QueueStatus) (e : Error)
    (h : (tallyPodGroups c keys st).2 = Except.error e) :
    ∃ before k after, keys = before ++ k :: after ∧
      (∀ k' ∈ before, ∃ pg, getPodGroup c k' = Except.ok pg) ∧ getPodGroup c k = Except.error e := by
  induction keys generalizing st with
  | nil => simp [tallyPodGroups] at h
  | cons k rest ih =>
    unfold tallyPodGroups at h
    cases hk : getPodGroup c k with
    | error e' =>
      rw [hk] at h
      simp at h
      exact ⟨[], k, rest, rfl, by simp, by rw [hk, h]⟩
    | ok pg =>
      rw [hk] at h
      obtain ⟨before, k2, after, hkeys, hbefore, hk2⟩ := ih _ h
      refine ⟨k :: before, k2, after, by simp [hkeys], ?_, hk2⟩
      intro k' hk'
      rcases List.mem_cons.mp hk' with rfl | hmem
      · exact ⟨pg, hk⟩
      · exact hbefore k' hmem

/-- Keys that all resolve resolve to some list of groups. -/
theorem resolves_of_forall (c : Controller) (keys : List String)
    (h : ∀ k ∈ keys, ∃ pg, getPodGroup c k = Except.ok pg) : ∃ pgs, Resolves c keys pgs := by
  induction keys with
  | nil => exact ⟨[], List.Forall₂.nil⟩
  | cons k rest ih =>
    obtain ⟨pg, hpg⟩ := h k (List.mem_cons_self _ _)
    obtain ⟨pgs, hpgs⟩ := ih (fun k' hk' => h k' (List.mem_cons_of_mem _ hk'))
    exact ⟨pg :: pgs, List.Forall₂.cons hpg hpgs⟩

/-- When some lookup fails the loop ends with an error. -/
theorem tallyPodGroups_fails (c : Controller) (keys : List String) (st : QueueStatus)
    (h : ∃ k ∈ keys, ∃ e, getPodGroup c k = Except.error e) :
    ∃ e, (tallyPodGroups c keys st).2 = Except.error e := by
  induction keys generalizing st with
  | nil => simp at h
  | cons k rest ih =>
    unfold tallyPodGroups
    cases hk : getPodGroup c k with
    | error e' => exact ⟨e', rfl⟩
    | ok pg =>
      obtain ⟨k2, hk2, e, he⟩ := h
      rcases List.mem_cons.mp hk2 with rfl | hmem
      · rw [hk] at he; cases he
      · exact ih _ ⟨k2, hmem, e, he⟩

/-! ## Normal forms of syncQueue -/

theorem syncQueue_of_error (c : Controller) (queue : Queue) (fn : Option UpdateQueueStatusFn)
    (e : Error) (h : (tallyPodGroups c ((c.getPodGroups queue.Name).getD []) QueueStatus.zero).2 = Except.error e) :
    syncQueue c queue fn =
      ⟨Call.getPodGroups queue.Name ::
        (tallyPodGroups c ((c.getPodGroups queue.Name).getD []) QueueStatus.zero).1, some e⟩ := by
  rcases hr : tallyPodGroups c ((c.getPodGroups queue.Name).getD []) QueueStatus.zero with ⟨looked, r⟩
  rw [hr] at h
  simp at h
  subst h
  simp only [syncQueue, hr]

theorem syncQueue_of_resolved (c : Controller) (queue : Queue) (fn : Option UpdateQueueStatusFn)
    (pgs : List PodGroup) (hres : Resolves c ((c.getPodGroups queue.Name).getD []) pgs) :
    syncQueue c queue fn =
      (if candidateStatus queue fn (c.getPodGroups queue.Name) (phaseTally pgs) = queue.Status then
        ⟨Call.getPodGroups queue.Name :: ((c.getPodGroups queue.Name).getD []).map getPodGroupCall
          ++ candidateCalls fn (c.getPodGroups queue.Name) (phaseTally pgs), none⟩
      else
        ⟨Call.getPodGroups queue.Name :: ((c.getPodGroups queue.Name).getD []).map getPodGroupCall
          ++ candidateCalls fn (c.getPodGroups queue.Name) (phaseTally pgs)
          ++ [Call.UpdateStatus { queue with
              Status := candidateStatus queue fn (c.getPodGroups queue.Name) (phaseTally pgs) }],
         match c.UpdateStatus { queue with
              Status := candidateStatus queue fn (c.getPodGroups queue.Name) (phaseTally pgs) } with
         | Except.error err => some err
         | Except.ok _ => none⟩) := by
  unfold syncQueue
  simp only [tallyPodGroups_resolved c _ pgs hres, addTally_zero]
  split_ifs with h
  · rfl
  · split <;> simp_all

/-! ## Claims about syncQueue -/

/-- C1 (count correctness): when the keys bound to the queue resolve, in order, to
the groups `pgs`, the status `syncQueue` hands to the policy carries, for
each of Pending, Running, Unknown and Inqueue, the number of groups of `pgs`
in that phase; with no policy every status it writes carries the same four
numbers; and a group in any other phase leaves the status being accumulated
as it was. -/
theorem syncQueue_count_correctness (c : Controller) (queue : Queue) (keys : List String)
    (pgs : List PodGroup) (hbound : (c.getPodGroups queue.Name).getD [] = keys)
    (hres : Resolves c keys pgs) :
    (∀ fn : UpdateQueueStatusFn, ∃ counted podGroups,
        policyCalls (syncQueue c queue (some fn)).calls = [(counted, podGroups)] ∧
        counted.Pending = phaseCount pgs PodGroupPending ∧
        counted.Running = phaseCount pgs PodGroupRunning ∧
        counted.Unknown = phaseCount pgs PodGroupUnknown ∧
        counted.Inqueue = phaseCount pgs PodGroupInqueue) ∧
    (∀ w ∈ statusWrites (syncQueue c queue none).calls,
        w.Status.Pending = phaseCount pgs PodGroupPending ∧
        w.Status.Running = phaseCount pgs PodGroupRunning ∧
        w.Status.Unknown = phaseCount pgs PodGroupUnknown ∧
        w.Status.Inqueue = phaseCount pgs PodGroupInqueue) ∧
    (∀ (st : QueueStatus) (pg : PodGroup), pg.Status.Phase ≠ PodGroupPending →
        pg.Status.Phase ≠ PodGroupRunning → pg.Status.Phase ≠ PodGroupUnknown →
        pg.Status.Phase ≠ PodGroupInqueue → countPhase st pg.Status.Phase = st) := by
  subst hbound
  refine ⟨?_, ?_, ?_⟩
  · intro fn
    refine ⟨phaseTally pgs, c.getPodGroups queue.Name, ?_, rfl, rfl, rfl, rfl⟩
    rw [syncQueue_of_resolved c queue (some fn) pgs hres]
    split_ifs <;> simp [policyCalls, candidateCalls]
  · intro w hw
    rw [syncQueue_of_resolved c queue none pgs hres] at hw
    split_ifs at hw
    · simp [statusWrites, candidateCalls] at hw
    · simp [statusWrites, candidateCalls] at hw
      subst hw
      simp [candidateStatus, phaseTally]
  · intro st pg h1 h2 h3 h4
    simp [countPhase, h1, h2, h3, h4]

/-- The keys bound to `q1` in the demo controller resolve to `demoGroups`. -/
theorem demo_resolves : Resolves demoController demoKeys demoGroups := by
  unfold Resolves demoKeys demoGroups
  exact List.Forall₂.cons rfl (List.Forall₂.cons rfl
    (List.Forall₂.cons rfl (List.Forall₂.cons rfl List.Forall₂.nil)))

/-- Witness for C1: queue `q1` of the demo controller, whose four keys resolve to a
pending, two running and a completed group. -/
theorem syncQueue_count_correctness_witness :
    (demoController.getPodGroups demoQ1.Name).getD [] = demoKeys ∧
    Resolves demoController demoKeys demoGroups ∧
    (∀ w ∈ statusWrites (syncQueue demoController demoQ1 none).calls,
        w.Status.Pending = phaseCount demoGroups PodGroupPending ∧
        w.Status.Running = phaseCount demoGroups PodGroupRunning ∧
        w.Status.Unknown = phaseCount demoGroups PodGroupUnknown ∧
        w.Status.Inqueue = phaseCount demoGroups PodGroupInqueue) :=
  ⟨by decide, demo_resolves,
   (syncQueue_count_correctness demoController demoQ1 demoKeys demoGroups (by decide)
      demo_resolves).2.1⟩

/-- C3 (write frame): `syncQueue` issues at most one store write.  When every bound
key resolves it issues none if the candidate status equals the queue's status
and otherwise exactly one, an `UpdateStatus` of the queue with only its
status replaced by the candidate.  When some lookup fails it returns the
error of the first failed lookup and issues no write. -/
theorem syncQueue_write_frame (c : Controller) (queue : Queue) (fn : Option UpdateQueueStatusFn) :
    (storeWrites (syncQueue c queue fn).calls).length ≤ 1 ∧
    (∀ w ∈ storeWrites (syncQueue c queue fn).calls, ∃ status, status ≠ queue.Status ∧
        w = Call.UpdateStatus ⟨queue.Name, queue.ResourceVersion, queue.Spec, status⟩) ∧
    (∀ pgs, Resolves c ((c.getPodGroups queue.Name).getD []) pgs →
        storeWrites (syncQueue c queue fn).calls =
          if candidateStatus queue fn (c.getPodGroups queue.Name) (phaseTally pgs) = queue.Status
          then []
          else [Call.UpdateStatus ⟨queue.Name, queue.ResourceVersion, queue.Spec,
                  candidateStatus queue fn (c.getPodGroups queue.Name) (phaseTally pgs)⟩]) ∧
    ((∃ k ∈ (c.getPodGroups queue.Name).getD [], ∃ e, getPodGroup c k = Except.error e) →
        storeWrites (syncQueue c queue fn).calls = [] ∧
        ∃ before k after e, (c.getPodGroups queue.Name).getD [] = before ++ k :: after ∧
          (∀ k' ∈ before, ∃ pg, getPodGroup c k' = Except.ok pg) ∧
          getPodGroup c k = Except.error e ∧ (syncQueue c queue fn).err = some e) := by
  have hfail : ∀ e, (tallyPodGroups c ((c.getPodGroups queue.Name).getD []) QueueStatus.zero).2
      = Except.error e → storeWrites (syncQueue c queue fn).calls = [] := by
    intro e he
    rw [syncQueue_of_error c queue fn e he]
    obtain ⟨ks, hks⟩ := tallyPodGroups_calls c ((c.getPodGroups queue.Name).getD []) QueueStatus.zero
    simp [hks, storeWrites]
  have hok : ∀ pgs, Resolves c ((c.getPodGroups queue.Name).getD []) pgs →
      storeWrites (syncQueue c queue fn).calls =
        if candidateStatus queue fn (c.getPodGroups queue.Name) (phaseTally pgs) = queue.Status
        then []
        else [Call.UpdateStatus ⟨queue.Name, queue.ResourceVersion, queue.Spec,
                candidateStatus queue fn (c.getPodGroups queue.Name) (phaseTally pgs)⟩] := by
    intro pgs hres
    rw [syncQueue_of_resolved c queue fn pgs hres]
    cases fn <;> split_ifs <;> simp [storeWrites, candidateCalls]
  have hcases : (∃ e, (tallyPodGroups c ((c.getPodGroups queue.Name).getD []) QueueStatus.zero).2
      = Except.error e) ∨ ∃ pgs, Resolves c ((c.getPodGroups queue.Name).getD []) pgs := by
    by_cases hall : ∀ k ∈ (c.getPodGroups queue.Name).getD [], ∃ pg, getPodGroup c k = Except.ok pg
    · exact Or.inr (resolves_of_forall c _ hall)
    · left
      apply tallyPodGroups_fails
      push_neg at hall
      obtain ⟨k, hk, hne⟩ := hall
      cases hg : getPodGroup c k with
      | error e => exact ⟨k, hk, e, hg⟩
      | ok pg => exact absurd hg (hne pg)
  refine ⟨?_, ?_, hok, ?_⟩
  · rcases hcases with ⟨e, he⟩ | ⟨pgs, hres⟩
    · simp [hfail e he]
    · rw [hok pgs hres]; split_ifs <;> simp
  · intro w hw
    rcases hcases with ⟨e, he⟩ | ⟨pgs, hres⟩
    · simp [hfail e he] at hw
    · rw [hok pgs hres] at hw
      split_ifs at hw with hc
      · simp at hw
      · simp at hw
        exact ⟨_, hc, hw⟩
  · intro hex
    obtain ⟨e, he⟩ := tallyPodGroups_fails c _ QueueStatus.zero hex
    refine ⟨hfail e he, ?_⟩
    obtain ⟨before, k, after, hkeys, hbefore, hk⟩ := tallyPodGroups_error c _ _ e he
    exact ⟨before, k, after, e, hkeys, hbefore, hk, by rw [syncQueue_of_error c queue fn e he]⟩

/-- Lookups only depend on the lister. -/
theorem resolves_congr (c c2 : Controller) (hlister : c2.pgLister = c.pgLister)
    (keys : List String) (pgs : List PodGroup) (h : Resolves c keys pgs) : Resolves c2 keys pgs := by
  unfold Resolves at *
  simpa [getPodGroup_eq, hlister] using h

/-- Either the lookup loop of `syncQueue` ends with an error or every bound key resolves. -/
theorem tally_cases (c : Controller) (keys : List String) :
    (∃ e, (tallyPodGroups c keys QueueStatus.zero).2 = Except.error e) ∨ ∃ pgs, Resolves c keys pgs := by
  by_cases hall : ∀ k ∈ keys, ∃ pg, getPodGroup c k = Except.ok pg
  · exact Or.inr (resolves_of_forall c _ hall)
  · left
    apply tallyPodGroups_fails
    push_neg at hall
    obtain ⟨k, hk, hne⟩ := hall
    cases hg : getPodGroup c k with
    | error e => exact ⟨k, hk, e, hg⟩
    | ok pg => exact absurd hg (hne pg)

/-- C2 (sync idempotence): if `syncQueue` succeeds on a queue, and `stored` is the
queue as the store holds it afterwards (same name, status the one written, or
the old one when nothing was written), then `syncQueue` on `stored`, with the
same bound keys, the same lister answers and the same policy, issues no store
write and succeeds, whatever the store would answer. -/
theorem syncQueue_idempotent (c c2 : Controller) (queue stored : Queue)
    (fn : Option UpdateQueueStatusFn)
    (hgroups : c2.getPodGroups = c.getPodGroups) (hlister : c2.pgLister = c.pgLister)
    (hok : (syncQueue c queue fn).err = none)
    (hstored : StoredAfter queue (syncQueue c queue fn).calls stored) :
    storeWrites (syncQueue c2 stored fn).calls = [] ∧ (syncQueue c2 stored fn).err = none := by
  obtain ⟨hname, hstatus⟩ := hstored
  rcases tally_cases c ((c.getPodGroups queue.Name).getD []) with ⟨e, he⟩ | ⟨pgs, hres⟩
  · rw [syncQueue_of_error c queue fn e he] at hok
    simp at hok
  · have hres2 : Resolves c2 ((c2.getPodGroups stored.Name).getD []) pgs := by
      rw [hgroups, hname]
      exact resolves_congr c c2 hlister _ _ hres
    have hcand : candidateStatus stored fn (c2.getPodGroups stored.Name) (phaseTally pgs)
        = stored.Status := by
      rw [syncQueue_of_resolved c queue fn pgs hres] at hstatus
      rw [hgroups, hname]
      split_ifs at hstatus with hc
      · cases fn with
        | none =>
          simp [candidateCalls, statusWrites] at hstatus
          simp only [candidateStatus] at hc ⊢
          rw [hstatus, ← hc]
        | some f =>
          simp [candidateCalls, statusWrites] at hstatus
          simp only [candidateStatus] at hc ⊢
          rw [hstatus, ← hc]
      · cases fn with
        | none =>
          simp [candidateCalls, statusWrites] at hstatus
          simp only [candidateStatus] at hstatus ⊢
          rw [hstatus]
        | some f =>
          simp [candidateCalls, statusWrites] at hstatus
          simp only [candidateStatus] at hstatus ⊢
          rw [hstatus]
    rw [syncQueue_of_resolved c2 stored fn pgs hres2, if_pos hcand]
    cases fn <;> simp [storeWrites, candidateCalls]

/-- Witness for C2: a first sync of `q1` writes the tallies; the stored queue then
carries them, under a new resource version. -/
theorem syncQueue_idempotent_witness :
    (syncQueue demoController demoQ1 none).err = none ∧
    StoredAfter demoQ1 (syncQueue demoController demoQ1 none).calls demoQ1Synced ∧
    storeWrites (syncQueue demoController demoQ1Synced none).calls = [] ∧
    (syncQueue demoController demoQ1Synced none).err = none :=
  ⟨by decide, ⟨by decide, by decide⟩,
   syncQueue_idempotent demoController demoController demoQ1 demoQ1Synced none rfl rfl
     (by decide) ⟨by decide, by decide⟩⟩

/-- A key that cannot be split yields the empty namespace and the empty name. -/
theorem split_of_malformed (k : String) (h : Malformed k) :
    (SplitMetaNamespaceKey k).1 = "" ∧ (SplitMetaNamespaceKey k).2.1 = "" := by
  unfold Malformed SplitMetaNamespaceKey at *
  split <;> simp_all

/-- Keys that resolve, followed by a key that resolves and by keys that resolve,
resolve to the groups in the same order. -/
theorem resolves_around (c : Controller) (before after : List String) (k : String)
    (pgsB pgsA : List PodGroup) (pg : PodGroup) (hB : Resolves c before pgsB)
    (hk : getPodGroup c k = Except.ok pg) (hA : Resolves c after pgsA) :
    Resolves c (before ++ k :: after) (pgsB ++ pg :: pgsA) := by
  unfold Resolves at *
  induction hB with
  | nil => exact List.Forall₂.cons hk hA
  | cons h _ ih => exact List.Forall₂.cons h ih

/-- The tallies of a list split around one group. -/
theorem phaseTally_around (pgsB pgsA : List PodGroup) (pg : PodGroup) :
    phaseTally (pgsB ++ pg :: pgsA) = tallyAround pgsB pg pgsA := by
  simp only [phaseTally, tallyAround, phaseCount, List.countP_append, List.countP_cons,
    decide_eq_true_eq, Nat.add_assoc, Nat.add_comm (List.countP _ pgsA)]

/-- The loop stops at the first key whose lookup fails, after one lister call for
each key up to and including it. -/
theorem tallyPodGroups_stops (c : Controller) (before after : List String) (k : String)
    (pgsB : List PodGroup) (e : Error) (hB : Resolves c before pgsB)
    (hk : getPodGroup c k = Except.error e) (st : QueueStatus) :
    tallyPodGroups c (before ++ k :: after) st =
      (before.map getPodGroupCall ++ [getPodGroupCall k], Except.error e) := by
  unfold Resolves at hB
  induction hB generalizing st with
  | nil => simp [tallyPodGroups, hk]
  | cons h _ ih => simp [tallyPodGroups, h, ih]

/-- C7, as the code has it: a key that cannot be split is not skipped.  Its split
error is dropped and the lister is asked for the empty namespace and the
empty name.  When that lookup fails, `syncQueue` returns an error, invokes no
policy and writes nothing; if the keys before it resolve, the error returned
is that lookup's and the lookup is the last call.  When that lookup succeeds
and the other keys resolve, `syncQueue` goes on: it issues one lister call
per key, the group found adds one to the count of its phase next to the
groups of the other keys, the policy is handed these tallies, and the
candidate built from them is compared with the stored status and written. -/
theorem syncQueue_malformed_key (c : Controller) (queue : Queue) (fn : Option UpdateQueueStatusFn)
    (before after : List String) (k : String)
    (hkeys : (c.getPodGroups queue.Name).getD [] = before ++ k :: after) (hmal : Malformed k) :
    getPodGroup c k = c.pgLister "" "" ∧
    (∀ e, c.pgLister "" "" = Except.error e →
        (syncQueue c queue fn).err ≠ none ∧ storeWrites (syncQueue c queue fn).calls = [] ∧
        policyCalls (syncQueue c queue fn).calls = [] ∧
        (∀ pgsB, Resolves c before pgsB →
          syncQueue c queue fn =
            ⟨Call.getPodGroups queue.Name ::
              (before.map getPodGroupCall ++ [Call.PodGroupsGet "" ""]), some e⟩)) ∧
    (∀ pg pgsB pgsA, c.pgLister "" "" = Except.ok pg → Resolves c before pgsB →
        Resolves c after pgsA →
        syncQueue c queue fn =
          (if candidateStatus queue fn (c.getPodGroups queue.Name) (tallyAround pgsB pg pgsA)
              = queue.Status then
            ⟨Call.getPodGroups queue.Name ::
              (before.map getPodGroupCall ++ Call.PodGroupsGet "" "" :: after.map getPodGroupCall)
              ++ candidateCalls fn (c.getPodGroups queue.Name) (tallyAround pgsB pg pgsA), none⟩
          else
            ⟨Call.getPodGroups queue.Name ::
              (before.map getPodGroupCall ++ Call.PodGroupsGet "" "" :: after.map getPodGroupCall)
              ++ candidateCalls fn (c.getPodGroups queue.Name) (tallyAround pgsB pg pgsA)
              ++ [Call.UpdateStatus ⟨queue.Name, queue.ResourceVersion, queue.Spec,
                    candidateStatus queue fn (c.getPodGroups queue.Name)
                      (tallyAround pgsB pg pgsA)⟩],
             match c.UpdateStatus ⟨queue.Name, queue.ResourceVersion, queue.Spec,
                    candidateStatus queue fn (c.getPodGroups queue.Name)
                      (tallyAround pgsB pg pgsA)⟩ with
             | Except.error err => some err
             | Except.ok _ => none⟩) ∧
        (∀ f, fn = some f → policyCalls (syncQueue c queue fn).calls
            = [(tallyAround pgsB pg pgsA, c.getPodGroups queue.Name)]) ∧
        (fn = none → statusWrites (syncQueue c queue fn).calls =
            (if (⟨queue.Status.State, (tallyAround pgsB pg pgsA).Unknown,
                  (tallyAround pgsB pg pgsA).Pending, (tallyAround pgsB pg pgsA).Running,
                  (tallyAround pgsB pg pgsA).Inqueue⟩ : QueueStatus) = queue.Status then []
             else [⟨queue.Name, queue.ResourceVersion, queue.Spec,
                    ⟨queue.Status.State, (tallyAround pgsB pg pgsA).Unknown,
                      (tallyAround pgsB pg pgsA).Pending, (tallyAround pgsB pg pgsA).Running,
                      (tallyAround pgsB pg pgsA).Inqueue⟩⟩]))) := by
  obtain ⟨hns, hname⟩ := split_of_malformed k hmal
  have hget : getPodGroup c k = c.pgLister "" "" := by rw [getPodGroup_eq, hns, hname]
  have hcall : getPodGroupCall k = Call.PodGroupsGet "" "" := by rw [getPodGroupCall_eq, hns, hname]
  have hk : k ∈ (c.getPodGroups queue.Name).getD [] := by rw [hkeys]; simp
  refine ⟨hget, ?_, ?_⟩
  · intro e he
    obtain ⟨e', he'⟩ := tallyPodGroups_fails c _ QueueStatus.zero ⟨k, hk, e, by rw [hget, he]⟩
    obtain ⟨ks, hks⟩ := tallyPodGroups_calls c ((c.getPodGroups queue.Name).getD []) QueueStatus.zero
    refine ⟨?_, ?_, ?_, ?_⟩
    · rw [syncQueue_of_error c queue fn e' he']; simp
    · rw [syncQueue_of_error c queue fn e' he']; simp [hks, storeWrites]
    · rw [syncQueue_of_error c queue fn e' he']; simp [hks, policyCalls]
    · intro pgsB hB
      have hstop := tallyPodGroups_stops c before after k pgsB e hB (by rw [hget, he])
        QueueStatus.zero
      rw [← hkeys] at hstop
      rw [syncQueue_of_error c queue fn e (by rw [hstop]), hstop, hcall]
  · intro pg pgsB pgsA hpg hB hA
    have hres : Resolves c ((c.getPodGroups queue.Name).getD []) (pgsB ++ pg :: pgsA) := by
      rw [hkeys]
      exact resolves_around c before after k pgsB pgsA pg hB (by rw [hget, hpg]) hA
    have hnf := syncQueue_of_resolved c queue fn (pgsB ++ pg :: pgsA) hres
    rw [phaseTally_around, hkeys] at hnf
    simp only [List.map_append, List.map_cons, hcall] at hnf
    refine ⟨hnf, ?_, ?_⟩
    · intro f hf
      subst hf
      rw [hnf]
      split_ifs <;> simp [policyCalls, candidateCalls, getPodGroupCall_eq]
    · intro hf
      subst hf
      rw [hnf]
      simp only [candidateStatus]
      split_ifs <;> simp [statusWrites, candidateCalls, getPodGroupCall_eq]

/-- Witness for C7 as amended: queue `q3`, to which the key `a/b/c` is bound before
a key of a running group.  With the demo lister the lookup of the empty
namespace and name fails; with the lax lister it finds a running group, and
two running groups are written. -/
theorem syncQueue_malformed_key_witness :
    (demoController.getPodGroups demoQ3.Name).getD [] = [] ++ "a/b/c" :: ["default/pg2"] ∧
    Malformed "a/b/c" ∧
    syncQueue demoController demoQ3 none =
      ⟨Call.getPodGroups demoQ3.Name ::
        (([] : List String).map getPodGroupCall ++ [Call.PodGroupsGet "" ""]),
       some "podgroup not found: /"⟩ ∧
    statusWrites (syncQueue laxController demoQ3 none).calls =
      (if (⟨demoQ3.Status.State, (tallyAround [] ⟨⟨"Running"⟩⟩ [⟨⟨"Running"⟩⟩]).Unknown,
            (tallyAround [] ⟨⟨"Running"⟩⟩ [⟨⟨"Running"⟩⟩]).Pending,
            (tallyAround [] ⟨⟨"Running"⟩⟩ [⟨⟨"Running"⟩⟩]).Running,
            (tallyAround [] ⟨⟨"Running"⟩⟩ [⟨⟨"Running"⟩⟩]).Inqueue⟩ : QueueStatus)
          = demoQ3.Status then []
       else [⟨demoQ3.Name, demoQ3.ResourceVersion, demoQ3.Spec,
              ⟨demoQ3.Status.State, (tallyAround [] ⟨⟨"Running"⟩⟩ [⟨⟨"Running"⟩⟩]).Unknown,
                (tallyAround [] ⟨⟨"Running"⟩⟩ [⟨⟨"Running"⟩⟩]).Pending,
                (tallyAround [] ⟨⟨"Running"⟩⟩ [⟨⟨"Running"⟩⟩]).Running,
                (tallyAround [] ⟨⟨"Running"⟩⟩ [⟨⟨"Running"⟩⟩]).Inqueue⟩⟩]) ∧
    statusWrites (syncQueue laxController demoQ3 none).calls =
      [⟨"q3", "1", ⟨1, "Open"⟩, ⟨"Open", 0, 0, 2, 0⟩⟩] :=
  ⟨by decide, by decide,
   ((syncQueue_malformed_key demoController demoQ3 none [] ["default/pg2"] "a/b/c" (by decide)
      (by decide)).2.1 "podgroup not found: /" rfl).2.2.2 [] List.Forall₂.nil,
   ((syncQueue_malformed_key laxController demoQ3 none [] ["default/pg2"] "a/b/c" (by decide)
      (by decide)).2.2 ⟨⟨"Running"⟩⟩ [] [⟨⟨"Running"⟩⟩] rfl List.Forall₂.nil
      (List.Forall₂.cons rfl List.Forall₂.nil)).2.2 rfl,
   by decide⟩

/-- Counterexample to C7 as stated: the first key bound to `q3` cannot be split and
the second resolves to a running group; `syncQueue` does not skip the first
key and tally the second, it looks up the empty namespace and name, and
returns the error of that lookup. -/
theorem syncQueue_malformed_key_counterexample :
    demoController.getPodGroups demoQ3.Name = some ["a/b/c", "default/pg2"] ∧
    Malformed "a/b/c" ∧
    getPodGroup demoController "default/pg2" = Except.ok ⟨⟨"Running"⟩⟩ ∧
    syncQueue demoController demoQ3 none =
      ⟨[Call.getPodGroups "q3", Call.PodGroupsGet "" ""],
       some "podgroup not found: /"⟩ ∧
    (syncQueue demoController demoQ3 none).err ≠ none :=
  ⟨by decide, by decide, rfl, by decide, by decide⟩

/-- C8, as the code has it: when the bound keys resolve to the groups `pgs`, the
policy is invoked once, on a fresh status whose lifecycle state is empty and
whose counts are the tallies of `pgs`, together with the bound keys; the
candidate that is compared with the queue's status and written is the
policy's result on that input. -/
theorem syncQueue_policy_input (c : Controller) (queue : Queue) (fn : UpdateQueueStatusFn)
    (pgs : List PodGroup) (hres : Resolves c ((c.getPodGroups queue.Name).getD []) pgs) :
    policyCalls (syncQueue c queue (some fn)).calls
      = [(phaseTally pgs, c.getPodGroups queue.Name)] ∧
    (phaseTally pgs).State = "" ∧
    storeWrites (syncQueue c queue (some fn)).calls =
      (if fn (phaseTally pgs) (c.getPodGroups queue.Name) = queue.Status then []
       else [Call.UpdateStatus ⟨queue.Name, queue.ResourceVersion, queue.Spec,
               fn (phaseTally pgs) (c.getPodGroups queue.Name)⟩]) := by
  rw [syncQueue_of_resolved c queue (some fn) pgs hres]
  refine ⟨?_, rfl, ?_⟩
  · split_ifs <;> simp [policyCalls, candidateCalls]
  · simp only [candidateStatus]
    split_ifs <;> simp [storeWrites, candidateCalls]

/-- Witness for C8 as amended: queue `q1` of the demo controller with the
pass-through policy. -/
theorem syncQueue_policy_input_witness :
    Resolves demoController ((demoController.getPodGroups demoQ1Synced.Name).getD []) demoGroups ∧
    policyCalls (syncQueue demoController demoQ1Synced (some passThrough)).calls
      = [(phaseTally demoGroups, demoController.getPodGroups demoQ1Synced.Name)] :=
  ⟨demo_resolves, (syncQueue_policy_input demoController demoQ1Synced passThrough demoGroups
    demo_resolves).1⟩

/-- Counterexample to C8 as stated: the stored status of `q1` already carries the
tallies and the state `Open`.  Had the pass-through policy been handed the
stored status, the candidate would equal it and nothing would be written;
the policy is handed a status with the empty state instead, and that status
is written. -/
theorem syncQueue_policy_input_counterexample :
    policyCalls (syncQueue demoController demoQ1Synced (some passThrough)).calls
      = [(⟨"", 0, 1, 2, 0⟩, some demoKeys)] ∧
    policyCalls (syncQueue demoController demoQ1Synced (some passThrough)).calls
      ≠ [(demoQ1Synced.Status, demoController.getPodGroups demoQ1Synced.Name)] ∧
    passThrough demoQ1Synced.Status (demoController.getPodGroups demoQ1Synced.Name)
      = demoQ1Synced.Status ∧
    statusWrites (syncQueue demoController demoQ1Synced (some passThrough)).calls
      = [⟨"q1", "2", ⟨1, "Open"⟩, ⟨"", 0, 1, 2, 0⟩⟩] :=
  ⟨by decide, by decide, by decide, by decide⟩

/-- C9 (no policy keeps the lifecycle state): with no policy and bound keys that
resolve to the groups `pgs`, the candidate has the queue's lifecycle state
and the tallies of `pgs` as counts, no policy is invoked, the only possible
write is that candidate, and so every status written keeps the lifecycle
state of the queue. -/
theorem syncQueue_no_policy_keeps_state (c : Controller) (queue : Queue) (pgs : List PodGroup)
    (hres : Resolves c ((c.getPodGroups queue.Name).getD []) pgs) :
    candidateStatus queue none (c.getPodGroups queue.Name) (phaseTally pgs) =
      ⟨queue.Status.State, phaseCount pgs PodGroupUnknown, phaseCount pgs PodGroupPending,
        phaseCount pgs PodGroupRunning, phaseCount pgs PodGroupInqueue⟩ ∧
    policyCalls (syncQueue c queue none).calls = [] ∧
    statusWrites (syncQueue c queue none).calls =
      (if (⟨queue.Status.State, phaseCount pgs PodGroupUnknown, phaseCount pgs PodGroupPending,
            phaseCount pgs PodGroupRunning, phaseCount pgs PodGroupInqueue⟩ : QueueStatus)
          = queue.Status then []
       else [⟨queue.Name, queue.ResourceVersion, queue.Spec,
              ⟨queue.Status.State, phaseCount pgs PodGroupUnknown, phaseCount pgs PodGroupPending,
                phaseCount pgs PodGroupRunning, phaseCount pgs PodGroupInqueue⟩⟩]) ∧
    (∀ w ∈ statusWrites (syncQueue c queue none).calls, w.Status.State = queue.Status.State) := by
  have hcand : candidateStatus queue none (c.getPodGroups queue.Name) (phaseTally pgs) =
      ⟨queue.Status.State, phaseCount pgs PodGroupUnknown, phaseCount pgs PodGroupPending,
        phaseCount pgs PodGroupRunning, phaseCount pgs PodGroupInqueue⟩ := rfl
  have hw : statusWrites (syncQueue c queue none).calls =
      (if (⟨queue.Status.State, phaseCount pgs PodGroupUnknown, phaseCount pgs PodGroupPending,
            phaseCount pgs PodGroupRunning, phaseCount pgs PodGroupInqueue⟩ : QueueStatus)
          = queue.Status then []
       else [⟨queue.Name, queue.ResourceVersion, queue.Spec,
              ⟨queue.Status.State, phaseCount pgs PodGroupUnknown, phaseCount pgs PodGroupPending,
                phaseCount pgs PodGroupRunning, phaseCount pgs PodGroupInqueue⟩⟩]) := by
    rw [syncQueue_of_resolved c queue none pgs hres, hcand]
    split_ifs <;> simp [statusWrites, candidateCalls]
  refine ⟨hcand, ?_, hw, ?_⟩
  · rw [syncQueue_of_resolved c queue none pgs hres]
    split_ifs <;> simp [policyCalls, candidateCalls]
  · intro w hmem
    rw [hw] at hmem
    split_ifs at hmem
    · simp at hmem
    · simp at hmem
      rw [hmem]

/-- Witness for C9: `q1` of the demo controller; the write keeps the state `Open`. -/
theorem syncQueue_no_policy_keeps_state_witness :
    Resolves demoController ((demoController.getPodGroups demoQ1.Name).getD []) demoGroups ∧
    statusWrites (syncQueue demoController demoQ1 none).calls
      = [⟨"q1", "1", ⟨1, "Open"⟩, ⟨"Open", 0, 1, 2, 0⟩⟩] ∧
    (∀ w ∈ statusWrites (syncQueue demoController demoQ1 none).calls,
        w.Status.State = demoQ1.Status.State) :=
  ⟨demo_resolves, by decide,
   (syncQueue_no_policy_keeps_state demoController demoQ1 demoGroups demo_resolves).2.2.2⟩

/-! ## Claims about openQueue and closeQueue -/

/-- C4 (no-op short-circuit): on a queue whose spec state is already `Open`,
`openQueue` returns success and issues no call at all (no read, no write, no
event, no policy invocation), whatever the policy argument; likewise
`closeQueue` on a queue whose spec state is already `Closed`. -/
theorem open_close_noop (c : Controller) (queue : Queue) (fn : Option UpdateQueueStatusFn) :
    (queue.Spec.State = QueueStateOpen → openQueue c queue fn = ⟨[], none⟩) ∧
    (queue.Spec.State = QueueStateClosed → closeQueue c queue fn = ⟨[], none⟩) := by
  constructor
  · intro h
    simp [openQueue, h]
  · intro h
    simp [closeQueue, h]

/-- Witness for C4: `q2` is open, and the stored `q2` is closed. -/
theorem open_close_noop_witness :
    (demoQ2.Spec.State = QueueStateOpen ∧ openQueue demoController demoQ2 none = ⟨[], none⟩) ∧
    (demoStoredQ2.Spec.State = QueueStateClosed ∧
      closeQueue demoController demoStoredQ2 (some closingPolicy) = ⟨[], none⟩) :=
  ⟨⟨by decide, (open_close_noop demoController demoQ2 none).1 (by decide)⟩,
   ⟨by decide, (open_close_noop demoController demoStoredQ2 (some closingPolicy)).2 (by decide)⟩⟩

/-- C5, as the code has it: with a nil policy `openQueue` and `closeQueue` never
issue a status write.  On a queue whose spec state already equals the target
they return success without any call.  On a queue whose spec state differs
from the target they return an error: the store's error, after the update
and one Warning event, when the spec update fails; the store's error, after
the update, the Normal event and the refetch, when the refetch fails; and the
internal error, after the same calls (and, for `closeQueue`, the read of the
bound keys), when both succeed. -/
theorem open_close_nil_policy (c : Controller) (queue : Queue) :
    statusWrites (openQueue c queue none).calls = [] ∧
    statusWrites (closeQueue c queue none).calls = [] ∧
    (queue.Spec.State = QueueStateOpen → openQueue c queue none = ⟨[], none⟩) ∧
    (queue.Spec.State = QueueStateClosed → closeQueue c queue none = ⟨[], none⟩) ∧
    (queue.Spec.State ≠ QueueStateOpen →
      (openQueue c queue none).err ≠ none ∧
      (∀ e, c.Update ⟨queue.Name, queue.ResourceVersion, ⟨queue.Spec.Weight, QueueStateOpen⟩,
            queue.Status⟩ = Except.error e →
        openQueue c queue none =
          ⟨[Call.Update ⟨queue.Name, queue.ResourceVersion, ⟨queue.Spec.Weight, QueueStateOpen⟩,
              queue.Status⟩,
            Call.Event ⟨queue.Name, queue.ResourceVersion, ⟨queue.Spec.Weight, QueueStateOpen⟩,
              queue.Status⟩ EventType.Warning OpenQueueAction ("Open queue failed for " ++ e)],
           some e⟩) ∧
      (∀ u e, c.Update ⟨queue.Name, queue.ResourceVersion, ⟨queue.Spec.Weight, QueueStateOpen⟩,
            queue.Status⟩ = Except.ok u → c.Get queue.Name = Except.error e →
        openQueue c queue none =
          ⟨[Call.Update ⟨queue.Name, queue.ResourceVersion, ⟨queue.Spec.Weight, QueueStateOpen⟩,
              queue.Status⟩,
            Call.Event ⟨queue.Name, queue.ResourceVersion, ⟨queue.Spec.Weight, QueueStateOpen⟩,
              queue.Status⟩ EventType.Normal OpenQueueAction "Open queue succeed",
            Call.Get queue.Name],
           some e⟩) ∧
      (∀ u q, c.Update ⟨queue.Name, queue.ResourceVersion, ⟨queue.Spec.Weight, QueueStateOpen⟩,
            queue.Status⟩ = Except.ok u → c.Get queue.Name = Except.ok q →
        openQueue c queue none =
          ⟨[Call.Update ⟨queue.Name, queue.ResourceVersion, ⟨queue.Spec.Weight, QueueStateOpen⟩,
              queue.Status⟩,
            Call.Event ⟨queue.Name, queue.ResourceVersion, ⟨queue.Spec.Weight, QueueStateOpen⟩,
              queue.Status⟩ EventType.Normal OpenQueueAction "Open queue succeed",
            Call.Get queue.Name],
           some internalError⟩)) ∧
    (queue.Spec.State ≠ QueueStateClosed →
      (closeQueue c queue none).err ≠ none ∧
      (∀ e, c.Update ⟨queue.Name, queue.ResourceVersion, ⟨queue.Spec.Weight, QueueStateClosed⟩,
            queue.Status⟩ = Except.error e →
        closeQueue c queue none =
          ⟨[Call.Update ⟨queue.Name, queue.ResourceVersion, ⟨queue.Spec.Weight, QueueStateClosed⟩,
              queue.Status⟩,
            Call.Event ⟨queue.Name, queue.ResourceVersion, ⟨queue.Spec.Weight, QueueStateClosed⟩,
              queue.Status⟩ EventType.Warning CloseQueueAction ("Close queue failed for " ++ e)],
           some e⟩) ∧
      (∀ u e, c.Update ⟨queue.Name, queue.ResourceVersion, ⟨queue.Spec.Weight, QueueStateClosed⟩,
            queue.Status⟩ = Except.ok u → c.Get queue.Name = Except.error e →
        closeQueue c queue none =
          ⟨[Call.Update ⟨queue.Name, queue.ResourceVersion, ⟨queue.Spec.Weight, QueueStateClosed⟩,
              queue.Status⟩,
            Call.Event ⟨queue.Name, queue.ResourceVersion, ⟨queue.Spec.Weight, QueueStateClosed⟩,
              queue.Status⟩ EventType.Normal CloseQueueAction "Close queue succeed",
            Call.Get queue.Name],
           some e⟩) ∧
      (∀ u q, c.Update ⟨queue.Name, queue.ResourceVersion, ⟨queue.Spec.Weight, QueueStateClosed⟩,
            queue.Status⟩ = Except.ok u → c.Get queue.Name = Except.ok q →
        closeQueue c queue none =
          ⟨[Call.Update ⟨queue.Name, queue.ResourceVersion, ⟨queue.Spec.Weight, QueueStateClosed⟩,
              queue.Status⟩,
            Call.Event ⟨queue.Name, queue.ResourceVersion, ⟨queue.Spec.Weight, QueueStateClosed⟩,
              queue.Status⟩ EventType.Normal CloseQueueAction "Close queue succeed",
            Call.Get queue.Name, Call.getPodGroups q.Name],
           some internalError⟩)) := by
  refine ⟨?_, ?_, ?_, ?_, ?_, ?_⟩
  · unfold openQueue
    simp only []
    split_ifs
    · split
      · simp [statusWrites]
      · split <;> simp [statusWrites]
    · simp [statusWrites]
  · unfold closeQueue
    simp only []
    split_ifs
    · split
      · simp [statusWrites]
      · split <;> simp [statusWrites]
    · simp [statusWrites]
  · intro h
    simp [openQueue, h]
  · intro h
    simp [closeQueue, h]
  · intro h
    refine ⟨?_, ?_, ?_, ?_⟩
    · unfold openQueue
      simp only []
      rw [if_pos h]
      split
      · simp
      · split <;> simp
    · intro e he
      simp [openQueue, h, he]
    · intro u e hu he
      simp [openQueue, h, hu, he]
    · intro u q hu hq
      simp [openQueue, h, hu, hq]
  · intro h
    refine ⟨?_, ?_, ?_, ?_⟩
    · unfold closeQueue
      simp only []
      rw [if_pos h]
      split
      · simp
      · split <;> simp
    · intro e he
      simp [closeQueue, h, he]
    · intro u e hu he
      simp [closeQueue, h, hu, he]
    · intro u q hu hq
      simp [closeQueue, h, hu, hq]

/-- Witness for C5 as amended, with no policy on the demo controller: closing the
open queue `q2` ends with the internal error after the refetch; opening the
closed queue `q9`, which the store cannot refetch, ends with the store's
error; closing `locked` ends with the store's error of the spec update;
opening the open queue `q2` is a success without any call. -/
theorem open_close_nil_policy_witness :
    (demoQ2.Spec.State ≠ QueueStateClosed ∧
      closeQueue demoController demoQ2 none =
        ⟨[Call.Update ⟨"q2", "7", ⟨1, "Closed"⟩, ⟨"Open", 0, 0, 2, 0⟩⟩,
          Call.Event ⟨"q2", "7", ⟨1, "Closed"⟩, ⟨"Open", 0, 0, 2, 0⟩⟩ EventType.Normal
            CloseQueueAction "Close queue succeed",
          Call.Get "q2", Call.getPodGroups "q2"],
         some internalError⟩) ∧
    (demoQ9.Spec.State ≠ QueueStateOpen ∧
      openQueue demoController demoQ9 none =
        ⟨[Call.Update ⟨"q9", "4", ⟨1, "Open"⟩, ⟨"Closed", 0, 0, 0, 0⟩⟩,
          Call.Event ⟨"q9", "4", ⟨1, "Open"⟩, ⟨"Closed", 0, 0, 0, 0⟩⟩ EventType.Normal
            OpenQueueAction "Open queue succeed",
          Call.Get "q9"],
         some "not found"⟩) ∧
    (demoLocked.Spec.State ≠ QueueStateClosed ∧
      closeQueue demoController demoLocked none =
        ⟨[Call.Update ⟨"locked", "3", ⟨1, "Closed"⟩, ⟨"Open", 0, 0, 0, 0⟩⟩,
          Call.Event ⟨"locked", "3", ⟨1, "Closed"⟩, ⟨"Open", 0, 0, 0, 0⟩⟩ EventType.Warning
            CloseQueueAction ("Close queue failed for " ++ "conflict")],
         some "conflict"⟩) ∧
    (demoQ2.Spec.State = QueueStateOpen ∧ openQueue demoController demoQ2 none = ⟨[], none⟩) :=
  ⟨⟨by decide,
    ((open_close_nil_policy demoController demoQ2).2.2.2.2.2 (by decide)).2.2.2
      ⟨"q2", "7", ⟨1, "Closed"⟩, ⟨"Open", 0, 0, 2, 0⟩⟩ demoStoredQ2 rfl rfl⟩,
   ⟨by decide,
    ((open_close_nil_policy demoController demoQ9).2.2.2.2.1 (by decide)).2.2.1
      ⟨"q9", "4", ⟨1, "Open"⟩, ⟨"Closed", 0, 0, 0, 0⟩⟩ "not found" rfl rfl⟩,
   ⟨by decide,
    ((open_close_nil_policy demoController demoLocked).2.2.2.2.2 (by decide)).2.1
      "conflict" rfl⟩,
   ⟨by decide, (open_close_nil_policy demoController demoQ2).2.2.1 (by decide)⟩⟩

/-- Counterexample to C5 as stated: `openQueue` with a nil policy on the queue `q2`,
which is already open, returns success, not an error. -/
theorem open_close_nil_policy_counterexample :
    demoQ2.Spec.State = QueueStateOpen ∧ (openQueue demoController demoQ2 none).err = none ∧
    ¬ ((openQueue demoController demoQ2 none).err ≠ none ∧
        statusWrites (openQueue demoController demoQ2 none).calls = []) :=
  ⟨by decide, by decide, by decide⟩

/-- C6 (transition event pairing): on a queue whose spec state differs from the
target, when the spec update fails the action issues the update and exactly
one event, a Warning whose message ends with the error text, writes no
status and returns the store's error; when the spec update succeeds the
calls start with the update, then one Normal event, then the refetch, and
that Normal event is the only one among all the calls. -/
theorem transition_event_pairing (c : Controller) (queue : Queue) (fn : Option UpdateQueueStatusFn) :
    (queue.Spec.State ≠ QueueStateOpen →
      (∀ err, c.Update ⟨queue.Name, queue.ResourceVersion, ⟨queue.Spec.Weight, QueueStateOpen⟩,
            queue.Status⟩ = Except.error err →
        openQueue c queue fn =
          ⟨[Call.Update ⟨queue.Name, queue.ResourceVersion, ⟨queue.Spec.Weight, QueueStateOpen⟩,
              queue.Status⟩,
            Call.Event ⟨queue.Name, queue.ResourceVersion, ⟨queue.Spec.Weight, QueueStateOpen⟩,
              queue.Status⟩ EventType.Warning OpenQueueAction ("Open queue failed for " ++ err)],
           some err⟩) ∧
      (∀ u, c.Update ⟨queue.Name, queue.ResourceVersion, ⟨queue.Spec.Weight, QueueStateOpen⟩,
            queue.Status⟩ = Except.ok u →
        (∃ rest, (openQueue c queue fn).calls =
          Call.Update ⟨queue.Name, queue.ResourceVersion, ⟨queue.Spec.Weight, QueueStateOpen⟩,
              queue.Status⟩ ::
          Call.Event ⟨queue.Name, queue.ResourceVersion, ⟨queue.Spec.Weight, QueueStateOpen⟩,
              queue.Status⟩ EventType.Normal OpenQueueAction "Open queue succeed" ::
          Call.Get queue.Name :: rest ∧ storeWrites rest = (statusWrites rest).map Call.UpdateStatus) ∧
        normalEvents (openQueue c queue fn).calls =
          [Call.Event ⟨queue.Name, queue.ResourceVersion, ⟨queue.Spec.Weight, QueueStateOpen⟩,
              queue.Status⟩ EventType.Normal OpenQueueAction "Open queue succeed"])) ∧
    (queue.Spec.State ≠ QueueStateClosed →
      (∀ err, c.Update ⟨queue.Name, queue.ResourceVersion, ⟨queue.Spec.Weight, QueueStateClosed⟩,
            queue.Status⟩ = Except.error err →
        closeQueue c queue fn =
          ⟨[Call.Update ⟨queue.Name, queue.ResourceVersion, ⟨queue.Spec.Weight, QueueStateClosed⟩,
              queue.Status⟩,
            Call.Event ⟨queue.Name, queue.ResourceVersion, ⟨queue.Spec.Weight, QueueStateClosed⟩,
              queue.Status⟩ EventType.Warning CloseQueueAction ("Close queue failed for " ++ err)],
           some err⟩) ∧
      (∀ u, c.Update ⟨queue.Name, queue.ResourceVersion, ⟨queue.Spec.Weight, QueueStateClosed⟩,
            queue.Status⟩ = Except.ok u →
        (∃ rest, (closeQueue c queue fn).calls =
          Call.Update ⟨queue.Name, queue.ResourceVersion, ⟨queue.Spec.Weight, QueueStateClosed⟩,
              queue.Status⟩ ::
          Call.Event ⟨queue.Name, queue.ResourceVersion, ⟨queue.Spec.Weight, QueueStateClosed⟩,
              queue.Status⟩ EventType.Normal CloseQueueAction "Close queue succeed" ::
          Call.Get queue.Name :: rest ∧ storeWrites rest = (statusWrites rest).map Call.UpdateStatus) ∧
        normalEvents (closeQueue c queue fn).calls =
          [Call.Event ⟨queue.Name, queue.ResourceVersion, ⟨queue.Spec.Weight, QueueStateClosed⟩,
              queue.Status⟩ EventType.Normal CloseQueueAction "Close queue succeed"])) := by
  constructor
  · intro h
    constructor
    · intro err herr
      simp [openQueue, h, herr]
    · intro u hu
      unfold openQueue
      simp only [ne_eq, h, not_false_eq_true, if_true, hu]
      cases hq : c.Get queue.Name with
      | error e => exact ⟨⟨[], rfl, rfl⟩, rfl⟩
      | ok q =>
        cases fn with
        | none => exact ⟨⟨[], rfl, rfl⟩, rfl⟩
        | some f =>
          simp only []
          split_ifs
          · exact ⟨⟨_, rfl, rfl⟩, rfl⟩
          · split <;> exact ⟨⟨_, rfl, rfl⟩, rfl⟩
  · intro h
    constructor
    · intro err herr
      simp [closeQueue, h, herr]
    · intro u hu
      unfold closeQueue
      simp only [ne_eq, h, not_false_eq_true, if_true, hu]
      cases hq : c.Get queue.Name with
      | error e => exact ⟨⟨[], rfl, rfl⟩, rfl⟩
      | ok q =>
        cases fn with
        | none => exact ⟨⟨_, rfl, rfl⟩, rfl⟩
        | some f =>
          simp only []
          split_ifs
          · exact ⟨⟨_, rfl, rfl⟩, rfl⟩
          · split <;> exact ⟨⟨_, rfl, rfl⟩, rfl⟩

/-- Witness for C6: closing `locked` fails at the spec update, closing `q2`
succeeds at it. -/
theorem transition_event_pairing_witness :
    (demoLocked.Spec.State ≠ QueueStateClosed ∧
      closeQueue demoController demoLocked (some closingPolicy) =
        ⟨[Call.Update ⟨"locked", "3", ⟨1, "Closed"⟩, ⟨"Open", 0, 0, 0, 0⟩⟩,
          Call.Event ⟨"locked", "3", ⟨1, "Closed"⟩, ⟨"Open", 0, 0, 0, 0⟩⟩ EventType.Warning
            CloseQueueAction ("Close queue failed for " ++ "conflict")],
         some "conflict"⟩) ∧
    (demoQ2.Spec.State ≠ QueueStateClosed ∧
      normalEvents (closeQueue demoController demoQ2 (some closingPolicy)).calls =
        [Call.Event ⟨"q2", "7", ⟨1, "Closed"⟩, ⟨"Open", 0, 0, 2, 0⟩⟩ EventType.Normal
          CloseQueueAction "Close queue succeed"]) :=
  ⟨⟨by decide,
    ((transition_event_pairing demoController demoLocked (some closingPolicy)).2 (by decide)).1
      "conflict" rfl⟩,
   ⟨by decide,
    (((transition_event_pairing demoController demoQ2 (some closingPolicy)).2 (by decide)).2
      ⟨"q2", "7", ⟨1, "Closed"⟩, ⟨"Open", 0, 0, 2, 0⟩⟩ rfl).2⟩⟩

/-- C10 (status phase of open and close): once the spec update has succeeded and
the refetch has returned the queue `q`, `openQueue` invokes the policy once,
on the status of `q` with a nil key list, and `closeQueue` invokes it once,
on the status of `q` with the keys bound to `q`; each issues a status write
exactly when the lifecycle state of the result differs from the lifecycle
state of the queue it was called with, the object written being `q` with the
policy's result as its status, and returns success when the two states are
equal. -/
theorem open_close_status_phase (c : Controller) (queue q : Queue) (fn : UpdateQueueStatusFn) :
    (queue.Spec.State ≠ QueueStateOpen →
      (∃ u, c.Update ⟨queue.Name, queue.ResourceVersion, ⟨queue.Spec.Weight, QueueStateOpen⟩,
            queue.Status⟩ = Except.ok u) →
      c.Get queue.Name = Except.ok q →
        policyCalls (openQueue c queue (some fn)).calls = [(q.Status, none)] ∧
        statusWrites (openQueue c queue (some fn)).calls =
          (if queue.Status.State = (fn q.Status none).State then []
           else [⟨q.Name, q.ResourceVersion, q.Spec, fn q.Status none⟩]) ∧
        (queue.Status.State = (fn q.Status none).State →
          (openQueue c queue (some fn)).err = none)) ∧
    (queue.Spec.State ≠ QueueStateClosed →
      (∃ u, c.Update ⟨queue.Name, queue.ResourceVersion, ⟨queue.Spec.Weight, QueueStateClosed⟩,
            queue.Status⟩ = Except.ok u) →
      c.Get queue.Name = Except.ok q →
        policyCalls (closeQueue c queue (some fn)).calls = [(q.Status, c.getPodGroups q.Name)] ∧
        statusWrites (closeQueue c queue (some fn)).calls =
          (if queue.Status.State = (fn q.Status (c.getPodGroups q.Name)).State then []
           else [⟨q.Name, q.ResourceVersion, q.Spec, fn q.Status (c.getPodGroups q.Name)⟩]) ∧
        (queue.Status.State = (fn q.Status (c.getPodGroups q.Name)).State →
          (closeQueue c queue (some fn)).err = none)) := by
  constructor
  · rintro h ⟨u, hu⟩ hq
    unfold openQueue
    simp only [ne_eq, h, not_false_eq_true, if_true, hu, hq]
    split_ifs with hs
    · simp [policyCalls, statusWrites]
    · refine ⟨?_, ?_, fun h' => absurd h' hs⟩ <;> split <;> simp [policyCalls, statusWrites]
  · rintro h ⟨u, hu⟩ hq
    unfold closeQueue
    simp only [ne_eq, h, not_false_eq_true, if_true, hu, hq]
    split_ifs with hs
    · simp [policyCalls, statusWrites]
    · refine ⟨?_, ?_, fun h' => absurd h' hs⟩ <;> split <;> simp [policyCalls, statusWrites]

/-- Witness for C10: closing `q2` while two groups run; the refetched queue is
written with the state `Closing` and the refetched counts. -/
theorem open_close_status_phase_witness :
    demoQ2.Spec.State ≠ QueueStateClosed ∧
    demoController.Get demoQ2.Name = Except.ok demoStoredQ2 ∧
    statusWrites (closeQueue demoController demoQ2 (some closingPolicy)).calls =
      (if demoQ2.Status.State =
          (closingPolicy demoStoredQ2.Status (demoController.getPodGroups demoStoredQ2.Name)).State
       then []
       else [⟨demoStoredQ2.Name, demoStoredQ2.ResourceVersion, demoStoredQ2.Spec,
              closingPolicy demoStoredQ2.Status (demoController.getPodGroups demoStoredQ2.Name)⟩]) ∧
    statusWrites (closeQueue demoController demoQ2 (some closingPolicy)).calls =
      [⟨"q2", "8", ⟨1, "Closed"⟩, ⟨"Closing", 0, 0, 2, 0⟩⟩] :=
  ⟨by decide, rfl,
   ((open_close_status_phase demoController demoQ2 demoStoredQ2 closingPolicy).2 (by decide)
      ⟨_, rfl⟩ rfl).2.1,
   by decide⟩

end queue
